import Mathlib

/- Verification of the TulipAgent repository: a shallow embedding of
`tulip/tulip_agent.py` (the agent orchestration loop), the prompt templates of
`src/tulip_agent/prompts.py`, and the example domain functions of
`examples/tamims.py`.  The external chat-completion model and the vector-store
backend are modelled as oracles (a finite list of responses the model returns,
and a function from query strings to document lists); everything the
repository's own code does — message construction, assertions, deduplication,
tool dispatch, transcript accumulation — is embedded as executable Lean
definitions and proved against. -/

namespace Tulip

/- ===== Data model ===== -/

/-- A JSON value as it appears in a tool call's argument object after
`json.loads`: the modelled calls only ever carry strings and arrays of
strings, so those two constructors suffice. -/
inductive JVal where
  | str : String → JVal
  | arr : List String → JVal
deriving DecidableEq

/-- A JSON-parsed argument object (`json.loads(tool_call.function.arguments)`):
a key-value mapping, written as an association list with distinct keys. -/
abbrev Args := List (String × JVal)

/-- A tool call as produced by the model: `tool_call.id`,
`tool_call.function.name`, and the JSON-parsed `tool_call.function.arguments`
(the embedding works with the parsed argument object directly). -/
structure ToolCall where
  id : String
  name : String
  arguments : Args
deriving DecidableEq

/-- A chat message: the dictionaries the agent appends to `self.messages` as
well as the response messages coming back from the model.  A response with no
tool calls has `toolCalls = []` (the Python code treats the absent/falsy
`tool_calls` field exactly as the empty case of the loop condition). -/
structure ChatMsg where
  role : String
  content : String
  toolCallId : Option String := none
  name : Option String := none
  toolCalls : List ToolCall := []
deriving DecidableEq

/-- A user message, as appended by `TulipAgent.query`. -/
def userMsg (content : String) : ChatMsg :=
  { role := "user", content := content }

/- ===== The search_tools schema (TulipAgent.__init__) ===== -/

/-- One property of a JSON-schema parameter object: its type tag, the item
type for arrays, and its description (the nested dictionary of
`tulip_agent.py` lines 52-60, flattened into a record). -/
structure PropertySchema where
  pname : String
  ptype : String
  itemsType : Option String := none
  description : String
deriving DecidableEq

/-- The `parameters` object of a function schema: declared properties and the
`required` list. -/
structure ParamSchema where
  properties : List PropertySchema
  required : List String
deriving DecidableEq

/-- A function schema as sent to the chat-completion API:
`{name, description, parameters}`. -/
structure FunctionSchema where
  name : String
  description : String
  parameters : ParamSchema
deriving DecidableEq

/-- `self.search_tools_description` from `TulipAgent.__init__`, verbatim: the
single declared property is `action_descriptions`, while the `required` list
names `problem_description`. -/
def search_tools_description : FunctionSchema :=
  { name := "search_tools"
  , description := "Search for tools in your tool library."
  , parameters :=
      { properties :=
          [ { pname := "action_descriptions"
            , ptype := "array"
            , itemsType := some "string"
            , description :=
                "A list of textual description for the actions you want to execute." } ]
      , required := ["problem_description"] } }

/-- Python keyword unpacking `self.search_tools(**args)` against the signature
`def search_tools(self, action_descriptions)`: it succeeds exactly when the
argument object supplies exactly the key `action_descriptions` (a missing
required parameter or an unexpected keyword raises `TypeError`). -/
def unpackSearchToolsArgs : Args → Option JVal
  | [(k, v)] => if k = "action_descriptions" then some v else none
  | _ => none

/-- Iterating the `action_descriptions` argument the way the Python for-loop
in `search_tools` does: a JSON array yields its elements, and a JSON string
(the annotated type of the parameter) yields its one-character substrings. -/
def JVal.toActionList : JVal → List String
  | .arr xs => xs
  | .str s => s.data.map (fun c => String.mk [c])

/- ===== TulipAgent.search_tools ===== -/

/-- The worker behind `TulipAgent.search_tools`: the Python for-loop over
`action_descriptions`, carrying the accumulators `json_res` (results kept so
far) and `hash_res` (every raw document string any earlier iteration
received).  `search` is the external `tool_library.search(...)['documents'][0]`
oracle, and `parse` is `json.loads` on a document string. -/
def searchToolsGo (search : String → List String) (parse : String → α) :
    List String → List α → List String → List α
  | [], jsonRes, _ => jsonRes
  | a :: rest, jsonRes, hashRes =>
      searchToolsGo search parse rest
        (jsonRes ++ ((search a).filter (fun e => !hashRes.contains e)).map parse)
        (hashRes ++ search a)

/-- `TulipAgent.search_tools`: searches the tool library once per action
description and concatenates the parsed documents, skipping any document the
library already returned for an earlier action description of the same call. -/
def search_tools (search : String → List String) (parse : String → α)
    (actionDescriptions : List String) : List α :=
  searchToolsGo search parse actionDescriptions [] []

/-- The flattened results the library returns for a list of action
descriptions, in order (`concat (map search prior)`). -/
def flatMapSearch (search : String → List String) : List String → List String
  | [] => []
  | a :: rest => search a ++ flatMapSearch search rest

/-- The deduplication contract in the spec's words: given the action
descriptions already processed (`prior`), each remaining action description
contributes the documents the library returns for it, except those the
library already returned for an earlier action description of the same call;
only the first occurrence is kept. -/
def dedupAcrossFrom (search : String → List String) :
    List String → List String → List String
  | _, [] => []
  | prior, a :: rest =>
      (search a).filter (fun e => !(flatMapSearch search prior).contains e)
        ++ dedupAcrossFrom search (prior ++ [a]) rest

theorem flatMapSearch_append (search : String → List String) (l1 l2 : List String) :
    flatMapSearch search (l1 ++ l2) = flatMapSearch search l1 ++ flatMapSearch search l2 := by
  induction l1 with
  | nil => simp [flatMapSearch]
  | cons x xs ih => simp [flatMapSearch, ih]

theorem searchToolsGo_eq_dedup (search : String → List String) (parse : String → α) :
    ∀ (acts prior : List String) (jsonRes : List α),
    searchToolsGo search parse acts jsonRes (flatMapSearch search prior)
      = jsonRes ++ (dedupAcrossFrom search prior acts).map parse := by
  intro acts
  induction acts with
  | nil => intro prior jsonRes; simp [searchToolsGo, dedupAcrossFrom]
  | cons a rest ih =>
      intro prior jsonRes
      have hflat : flatMapSearch search prior ++ search a
          = flatMapSearch search (prior ++ [a]) := by
        rw [flatMapSearch_append]; simp [flatMapSearch]
      calc searchToolsGo search parse (a :: rest) jsonRes (flatMapSearch search prior)
          = searchToolsGo search parse rest
              (jsonRes ++ ((search a).filter
                (fun e => !(flatMapSearch search prior).contains e)).map parse)
              (flatMapSearch search prior ++ search a) := rfl
        _ = searchToolsGo search parse rest
              (jsonRes ++ ((search a).filter
                (fun e => !(flatMapSearch search prior).contains e)).map parse)
              (flatMapSearch search (prior ++ [a])) := by rw [hflat]
        _ = (jsonRes ++ ((search a).filter
                (fun e => !(flatMapSearch search prior).contains e)).map parse)
              ++ (dedupAcrossFrom search (prior ++ [a]) rest).map parse := ih _ _
        _ = jsonRes ++ (dedupAcrossFrom search prior (a :: rest)).map parse := by
              simp [dedupAcrossFrom]

/-- C3: for every list of action descriptions handled in a single
`TulipAgent.search_tools` call, the returned list of tool documents is exactly
the per-action search results with every document the library already
returned for an earlier action description of the same call removed — only
the first occurrence of a document across overlapping action descriptions
survives.  (Duplication of the library's results is judged on the raw
document strings, as in the source; `parse` is `json.loads`.) -/
theorem search_tools_dedups_across_actions {α : Type}
    (search : String → List String) (parse : String → α) (acts : List String) :
    search_tools search parse acts = (dedupAcrossFrom search [] acts).map parse := by
  have h := searchToolsGo_eq_dedup search parse acts [] []
  simpa [search_tools, flatMapSearch] using h

/- ===== TulipAgent.__get_response ===== -/

/-- `TulipAgent.__get_response`: the blocking retry loop around
`chat.completions.create`.  The external API is modelled as the finite list of
outcomes it produces for the successive identical attempts: `none` stands for
a raised `OpenAIError` (which the code logs and swallows), `some r` for a
returned response.  An overall result of `none` means every attempt so far
errored and the code is still inside the loop, blocked — it has not returned
anything, and in particular it has not returned an error. -/
def getResponse : List (Option ChatMsg) → Option ChatMsg
  | [] => none
  | none :: rest => getResponse rest
  | some r :: _ => some r

/-- C4: whenever the chat-completion API keeps raising errors, the
response-fetching step retries without limit and returns nothing to its
caller (it is still blocked after any finite number `n` of consecutive
errors); the first successful attempt's response is the value returned.  The
result type `Option ChatMsg` has no error alternative: an error is never
returned to the caller. -/
theorem get_response_retries_until_success :
    ∀ (n : Nat) (r : ChatMsg) (rest : List (Option ChatMsg)),
      getResponse (List.replicate n none) = none
      ∧ getResponse (List.replicate n none ++ some r :: rest) = some r := by
  intro n
  induction n with
  | zero => intro r rest; exact ⟨rfl, rfl⟩
  | succ m ih =>
      intro r rest
      exact ⟨by simpa [List.replicate_succ, getResponse] using (ih r rest).1,
             by simpa [List.replicate_succ, getResponse] using (ih r rest).2⟩

/- ===== examples/tamims.py ===== -/

/-- The `capitals` dictionary of `examples/tamims.py`. -/
def capitals : List (String × String) :=
  [("France", "Paris"), ("Germany", "Berlin"), ("Italy", "Rome"), ("Japan", "Tokyo")]

/-- `capital(country)` from `examples/tamims.py`:
`capitals.get(country, "Unknown")`. -/
def capital (country : String) : String :=
  (capitals.lookup country).getD "Unknown"

/-- The `languages` dictionary of `examples/tamims.py`. -/
def languages : List (String × String) :=
  [("France", "French"), ("Germany", "German"), ("Italy", "Italian"), ("Japan", "Japanese")]

/-- `language(country)` from `examples/tamims.py`:
`languages.get(country, "Unknown")`. -/
def language (country : String) : String :=
  (languages.lookup country).getD "Unknown"

/-- C9: for every country string other than the four listed ones, both
`capital` and `language` return `"Unknown"` rather than failing; on the four
listed countries they return the tabulated capital or language. -/
theorem capital_language_total_with_default :
    (∀ c : String, c ∉ ["France", "Germany", "Italy", "Japan"] →
        capital c = "Unknown" ∧ language c = "Unknown")
    ∧ capital "France" = "Paris" ∧ capital "Germany" = "Berlin"
    ∧ capital "Italy" = "Rome" ∧ capital "Japan" = "Tokyo"
    ∧ language "France" = "French" ∧ language "Germany" = "German"
    ∧ language "Italy" = "Italian" ∧ language "Japan" = "Japanese" := by
  refine ⟨?_, rfl, rfl, rfl, rfl, rfl, rfl, rfl, rfl⟩
  intro c hc
  simp only [List.mem_cons, not_or] at hc
  obtain ⟨h1, h2, h3, h4, -⟩ := hc
  have e1 : (c == "France") = false := beq_eq_false_iff_ne.mpr h1
  have e2 : (c == "Germany") = false := beq_eq_false_iff_ne.mpr h2
  have e3 : (c == "Italy") = false := beq_eq_false_iff_ne.mpr h3
  have e4 : (c == "Japan") = false := beq_eq_false_iff_ne.mpr h4
  constructor
  · simp [capital, capitals, List.lookup, e1, e2, e3, e4]
  · simp [language, languages, List.lookup, e1, e2, e3, e4]

/-- Witness for C9 at the concrete country `"Spain"`. -/
theorem capital_language_total_with_default_witness :
    capital "Spain" = "Unknown" ∧ language "Spain" = "Unknown" :=
  capital_language_total_with_default.1 "Spain" (by decide)

/-- C10: the published `search_tools` schema is internally inconsistent — its
`required` list names `problem_description`, which is not among its declared
properties (the only property is `action_descriptions`) — and consequently
unpacking an argument object that supplies exactly the schema's required
parameter into `search_tools` fails (Python raises `TypeError`), whatever the
parameter's value; concretely, the `searchPhase` of the query aborts with
that type error on any such model-issued call. -/
theorem search_tools_schema_mismatch :
    search_tools_description.parameters.required = ["problem_description"]
    ∧ search_tools_description.parameters.properties.map PropertySchema.pname
        = ["action_descriptions"]
    ∧ "problem_description"
        ∉ search_tools_description.parameters.properties.map PropertySchema.pname
    ∧ ∀ v : JVal, unpackSearchToolsArgs [("problem_description", v)] = none := by
  refine ⟨rfl, rfl, by decide, ?_⟩
  intro v
  rfl

/- ===== TulipAgent.query: state, phases and the tool-calling loop =====

The chat model is an oracle: the finite list of responses it returns for the
successive `__get_response` calls of one run (each entry is a response after
the retry loop of `getResponse` has absorbed any transient API errors).  The
tool library's `search` and `execute` are oracles as well — the library
module itself delegates to external services.  The embedding additionally
records, per run, the outbound API requests (which tool schemas and which
tool-choice policy were sent) and every invocation of
`tool_library.execute`. -/

/-- The `tool_choice` policy actually sent to the chat API after
`__get_response`'s `tool_choice if tools else "none"` adjustment: `"none"`,
`"auto"`, or the forced-function dictionary. -/
inductive ToolChoice where
  | choiceNone
  | choiceAuto
  | forced : String → ToolChoice
deriving DecidableEq

/-- The `tools` parameter of an outbound request: the single
`search_tools_description` schema, or the tool documents found by the search
phase. -/
inductive ToolsParam where
  | searchOnly
  | found : List String → ToolsParam
deriving DecidableEq

/-- One outbound chat-completion request, as far as the claims are concerned:
which tool schemas were attached and which tool-choice policy was in
effect. -/
structure ApiCall where
  tools : ToolsParam
  toolChoice : ToolChoice
deriving DecidableEq

/-- The request issued by the tool-calling loop: `tools=tools,
tool_choice="auto"`; per `__get_response`, an empty (falsy) tools list
downgrades the choice to `"none"`. -/
def loopApiCall (docs : List String) : ApiCall :=
  { tools := .found docs
  , toolChoice := if docs.isEmpty then .choiceNone else .choiceAuto }

/-- The run-local accumulators of one `TulipAgent.query` invocation:
`msgs` is `self.messages`, `api` the outbound requests made so far, and
`execLog` the `tool_library.execute` invocations made so far. -/
structure RunAcc where
  msgs : List ChatMsg
  api : List ApiCall
  execLog : List (String × Args)
deriving DecidableEq

/-- The errors that abort a query: a failed `assert` (with its message), the
`TypeError` from unpacking bad keyword arguments into `search_tools`, and
exhaustion of the model oracle (the real code would block forever waiting on
the API at this point; nothing is returned). -/
inductive QErr where
  | assertFailure : String → QErr
  | typeError
  | noResponse
deriving DecidableEq

/-- One `__get_response` call inside `query`: records the outbound request
and consumes the next response from the model oracle. -/
def fetchResponse (call : ApiCall) (oracle : List ChatMsg) (acc : RunAcc) :
    Except QErr (ChatMsg × List ChatMsg × RunAcc) :=
  match oracle with
  | [] => .error .noResponse
  | r :: rest => .ok (r, rest, { acc with api := acc.api ++ [call] })

/-- The fixed instruction the Decompose step of `TulipAgent.query` wraps the
user request in (the inline f-string of `tulip_agent.py`, lines 112-115). -/
def taskDecompositionInstruction (prompt : String) : String :=
  "Considering the following user request, what are the necessary atomic actions you need to execute?\n `"
    ++ prompt ++ "`\nReturn a numbered list of steps."

/-- `TASK_DECOMPOSITION` from `src/tulip_agent/prompts.py`, formatted with a
prompt.  (Note: the inline instruction of `tulip_agent.py` differs from this
template by a space before the opening backtick and a missing trailing
newline.) -/
def TASK_DECOMPOSITION (prompt : String) : String :=
  "Considering the following user request, what are the necessary atomic actions you need to execute?\n`"
    ++ prompt ++ "`\nReturn a numbered list of steps.\n"

/-- The fixed instruction of the RespondWithTools step (the inline f-string
of `tulip_agent.py`, lines 170-175), parameterized by the decomposition
response's content. -/
def solveWithToolsInstruction (steps : String) : String :=
  "Now use the tools to fulfill the user request. Adhere exactly to the following steps:\n"
    ++ steps ++ "\nExecute the tool calls one at a time."

/-- Decompose step of `TulipAgent.query` (lines 108-125): append the wrapped
user request, request a completion with the `search_tools` schema attached
and tool choice `"none"`, and append the model's response. -/
def decomposePhase (prompt : String) (oracle : List ChatMsg) (acc : RunAcc) :
    Except QErr (ChatMsg × List ChatMsg × RunAcc) :=
  let acc1 := { acc with msgs := acc.msgs ++ [userMsg (taskDecompositionInstruction prompt)] }
  match fetchResponse { tools := .searchOnly, toolChoice := .choiceNone } oracle acc1 with
  | .error e => .error e
  | .ok (r1, oracle1, acc2) =>
      .ok (r1, oracle1, { acc2 with msgs := acc2.msgs ++ [r1] })

/-- The acknowledgement message the search step appends for the handled
`search_tools` call. -/
def searchAckMsg (tc : ToolCall) : ChatMsg :=
  { role := "tool", content := "Successfully provided suitable tools."
  , toolCallId := some tc.id, name := some tc.name }

/-- SearchTools step of `TulipAgent.query` (lines 127-164): append the fixed
search request, force a `search_tools` completion, append the response,
assert that it carries exactly one tool call (else
`"Not exactly one tool search executed, but {n}."`), assert the call is named
`search_tools` (else `"Unexpected tool call: {name}"`), unpack its arguments
into `search_tools` (a bad keyword set raises `TypeError`), run the library
search, and append the acknowledgement tool message.  Returns the tool
documents found. -/
def searchPhase (search : String → List String) (oracle : List ChatMsg) (acc : RunAcc) :
    Except QErr (List String × List ChatMsg × RunAcc) :=
  let acc1 := { acc with msgs := acc.msgs
      ++ [userMsg "Now search for appropriate tools for each of these steps."] }
  match fetchResponse { tools := .searchOnly, toolChoice := .forced "search_tools" } oracle acc1 with
  | .error e => .error e
  | .ok (r2, oracle1, acc2) =>
      let acc3 := { acc2 with msgs := acc2.msgs ++ [r2] }
      match r2.toolCalls with
      | [tc] =>
          if tc.name = "search_tools" then
            match unpackSearchToolsArgs tc.arguments with
            | none => .error .typeError
            | some v =>
                let tools := search_tools search (fun d => d) v.toActionList
                .ok (tools, oracle1, { acc3 with msgs := acc3.msgs ++ [searchAckMsg tc] })
          else .error (.assertFailure ("Unexpected tool call: " ++ tc.name))
      | tcs => .error (.assertFailure
          ("Not exactly one tool search executed, but " ++ toString tcs.length ++ "."))

/-- The tool message appended for one executed call: role `"tool"`, keyed by
the call's id, content the string form of the `tool_library.execute`
result (`exec` returns `str(function_response)`). -/
def toolResultMsg (exec : String → Args → String) (tc : ToolCall) : ChatMsg :=
  { role := "tool", content := exec tc.name tc.arguments
  , toolCallId := some tc.id, name := some tc.name }

/-- `while tool_calls:` — true iff the response requests tool calls. -/
def hasCalls (r : ChatMsg) : Bool :=
  !r.toolCalls.isEmpty

/-- The tool-calling loop of `TulipAgent.query` (lines 186-215), entered with
the response to the RespondWithTools request: while the current response
requests tool calls, append it, execute every requested call and append its
tool message, then fetch the next response; once a response carries no tool
calls, append it and return its content. -/
def toolLoop (exec : String → Args → String) (tools : List String) :
    ChatMsg → List ChatMsg → RunAcc → Except QErr (String × RunAcc)
  | current, oracle, acc =>
    match current.toolCalls with
    | [] => .ok (current.content, { acc with msgs := acc.msgs ++ [current] })
    | tcs =>
      let acc1 : RunAcc :=
        { msgs := acc.msgs ++ [current] ++ tcs.map (toolResultMsg exec)
        , api := acc.api ++ [loopApiCall tools]
        , execLog := acc.execLog ++ tcs.map (fun tc => (tc.name, tc.arguments)) }
      match oracle with
      | [] => .error .noResponse
      | next :: rest => toolLoop exec tools next rest acc1

/-- The outcome of one `TulipAgent.query` run: the returned answer, the final
`self.messages`, the outbound requests, the `tool_library.execute`
invocations, and the tool documents the search phase found. -/
structure QueryOut where
  answer : String
  messages : List ChatMsg
  api : List ApiCall
  execLog : List (String × Args)
  tools : List String
deriving DecidableEq

/-- The RespondWithTools request and the subsequent tool-calling loop
(`tulip_agent.py` lines 166-215): append the fixed instruction built from the
decomposition response's content, request a completion with the found tools
and tool choice `"auto"`, and run the loop. -/
def solveAndLoop (exec : String → Args → String) (tools : List String)
    (steps : String) (oracle : List ChatMsg) (acc : RunAcc) : Except QErr QueryOut :=
  let acc3 := { acc with msgs := acc.msgs ++ [userMsg (solveWithToolsInstruction steps)] }
  match fetchResponse (loopApiCall tools) oracle acc3 with
  | .error e => .error e
  | .ok (r3, oracle3, acc4) =>
    match toolLoop exec tools r3 oracle3 acc4 with
    | .error e => .error e
    | .ok (answer, acc5) =>
        .ok { answer := answer, messages := acc5.msgs, api := acc5.api
            , execLog := acc5.execLog, tools := tools }

/-- `TulipAgent.query` over an initial transcript `msgs0` (`self.messages` at
entry): Decompose, SearchTools, then RespondWithTools and the tool-calling
loop. -/
def queryRun (search : String → List String) (exec : String → Args → String)
    (oracle : List ChatMsg) (msgs0 : List ChatMsg) (prompt : String) :
    Except QErr QueryOut :=
  match decomposePhase prompt oracle { msgs := msgs0, api := [], execLog := [] } with
  | .error e => .error e
  | .ok (r1, oracle1, acc1) =>
    match searchPhase search oracle1 acc1 with
    | .error e => .error e
    | .ok (tools, oracle2, acc2) => solveAndLoop exec tools r1.content oracle2 acc2

/-- The agent object: the only instance state the claims depend on is
`self.messages`, created once in `__init__` and never reset. -/
structure TulipAgent where
  messages : List ChatMsg
deriving DecidableEq

/-- `TulipAgent.__init__`: `self.messages = []`, then the system instructions
are appended when truthy. -/
def TulipAgent.init (instructions : String) : TulipAgent :=
  { messages := if instructions = "" then []
      else [{ role := "system", content := instructions }] }

/-- `TulipAgent.query` as a method: runs on the agent's persistent
`self.messages` and stores the extended transcript back on the agent. -/
def TulipAgent.query (agent : TulipAgent) (search : String → List String)
    (exec : String → Args → String) (oracle : List ChatMsg) (prompt : String) :
    Except QErr (String × TulipAgent) :=
  match queryRun search exec oracle agent.messages prompt with
  | .error e => .error e
  | .ok out => .ok (out.answer, { messages := out.messages })

/- ===== Characterizing the tool-calling loop ===== -/

/-- The messages one iteration of the tool-calling loop appends for a
response `r` that requests tool calls: the response itself, then one tool
message per requested call, in order. -/
def roundMsgs (exec : String → Args → String) (r : ChatMsg) : List ChatMsg :=
  r :: r.toolCalls.map (toolResultMsg exec)

/-- The `tool_library.execute` invocations one iteration performs for a
response `r`: one per requested call, with the call's function name and its
argument object. -/
def roundLog (r : ChatMsg) : List (String × Args) :=
  r.toolCalls.map (fun tc => (tc.name, tc.arguments))

/-- Concatenation of the images of the elements (`flat_map`). -/
def catMap (f : α → List β) : List α → List β
  | [] => []
  | x :: xs => f x ++ catMap f xs

theorem toolLoop_spec (exec : String → Args → String) (tools : List String) :
    ∀ (oracle : List ChatMsg) (current : ChatMsg) (acc : RunAcc)
      (fin : ChatMsg) (rest' : List ChatMsg),
    (current :: oracle).dropWhile hasCalls = fin :: rest' →
    fin.toolCalls = []
    ∧ toolLoop exec tools current oracle acc = .ok (fin.content,
        { msgs := acc.msgs
            ++ catMap (roundMsgs exec) ((current :: oracle).takeWhile hasCalls) ++ [fin]
        , api := acc.api
            ++ ((current :: oracle).takeWhile hasCalls).map (fun _ => loopApiCall tools)
        , execLog := acc.execLog
            ++ catMap roundLog ((current :: oracle).takeWhile hasCalls) }) := by
  intro oracle
  induction oracle with
  | nil =>
      intro current acc fin rest' h
      cases hc : current.toolCalls with
      | nil =>
          have hp : ¬ (hasCalls current = true) := by simp [hasCalls, hc]
          rw [List.dropWhile_cons_of_neg hp] at h
          injection h with h1 h2
          subst h1
          refine ⟨hc, ?_⟩
          simp [toolLoop, hc, List.takeWhile_cons_of_neg hp, catMap]
      | cons t ts =>
          have hp : hasCalls current = true := by simp [hasCalls, hc]
          rw [List.dropWhile_cons_of_pos hp] at h
          simp [List.dropWhile] at h
  | cons next orest ih =>
      intro current acc fin rest' h
      cases hc : current.toolCalls with
      | nil =>
          have hp : ¬ (hasCalls current = true) := by simp [hasCalls, hc]
          rw [List.dropWhile_cons_of_neg hp] at h
          injection h with h1 h2
          subst h1
          refine ⟨hc, ?_⟩
          simp [toolLoop, hc, List.takeWhile_cons_of_neg hp, catMap]
      | cons t ts =>
          have hp : hasCalls current = true := by simp [hasCalls, hc]
          rw [List.dropWhile_cons_of_pos hp] at h
          obtain ⟨hfin, hrec⟩ := ih next
            { msgs := acc.msgs ++ [current] ++ (t :: ts).map (toolResultMsg exec)
            , api := acc.api ++ [loopApiCall tools]
            , execLog := acc.execLog ++ (t :: ts).map (fun tc => (tc.name, tc.arguments)) }
            fin rest' h
          refine ⟨hfin, ?_⟩
          have hstep : toolLoop exec tools current (next :: orest) acc
              = toolLoop exec tools next orest
                { msgs := acc.msgs ++ [current] ++ (t :: ts).map (toolResultMsg exec)
                , api := acc.api ++ [loopApiCall tools]
                , execLog := acc.execLog ++ (t :: ts).map (fun tc => (tc.name, tc.arguments)) } := by
            conv_lhs => rw [toolLoop.eq_def]
            simp only [hc]
          rw [hstep, hrec]
          simp [List.takeWhile_cons_of_pos hp, catMap, roundMsgs, roundLog, hc]

/-- C2: whenever some response in the (finite) sequence the model returns to
the tool-calling loop carries no tool calls, the loop terminates exactly at
the first such response and returns its content as the final answer; every
response before it requests tool calls and is processed by a further loop
iteration.  (`(current :: oracle).dropWhile hasCalls = fin :: rest'` states
that a no-tool-call response exists and that `fin` is the first one.) -/
theorem tool_loop_stops_at_first_plain_response
    (exec : String → Args → String) (tools : List String)
    (current : ChatMsg) (oracle : List ChatMsg) (acc : RunAcc)
    (fin : ChatMsg) (rest' : List ChatMsg)
    (h : (current :: oracle).dropWhile hasCalls = fin :: rest') :
    ∃ accF, toolLoop exec tools current oracle acc = .ok (fin.content, accF)
      ∧ fin.toolCalls = []
      ∧ ∀ r ∈ (current :: oracle).takeWhile hasCalls, r.toolCalls ≠ [] := by
  obtain ⟨hfin, hrun⟩ := toolLoop_spec exec tools oracle current acc fin rest' h
  refine ⟨_, hrun, hfin, ?_⟩
  intro r hr hnil
  have hp := List.mem_takeWhile_imp hr
  simp [hasCalls, hnil] at hp

/-- A demo response requesting a single tool call. -/
def c2CallMsg : ChatMsg :=
  { role := "assistant", content := "", toolCalls := [⟨"c1", "f", []⟩] }

/-- A demo response without tool calls. -/
def c2PlainMsg : ChatMsg :=
  { role := "assistant", content := "done" }

/-- Witness for C2: a response with one tool call followed by a plain
response; the loop stops at the plain response and returns `"done"`. -/
theorem tool_loop_stops_witness :
    ∃ accF,
      toolLoop (fun _ _ => "ok") [] c2CallMsg [c2PlainMsg] ⟨[], [], []⟩
        = .ok (c2PlainMsg.content, accF)
      ∧ c2PlainMsg.toolCalls = []
      ∧ ∀ r ∈ ([c2CallMsg, c2PlainMsg].takeWhile hasCalls), r.toolCalls ≠ [] :=
  tool_loop_stops_at_first_plain_response (fun _ _ => "ok") []
    c2CallMsg [c2PlainMsg] ⟨[], [], []⟩ c2PlainMsg [] (by decide)

/-- C5: in the ExecuteTools phase, for every response that requests tool
calls and for every requested call, the loop invokes `tool_library.execute`
with that call's function name and its JSON-parsed argument object (the
`execLog` entries), and appends to the transcript, right after the response
message, one message per call with role `"tool"`, `tool_call_id` equal to the
call's identifier, and content the string form of the execution result
(`roundMsgs`/`toolResultMsg`); this repeats for each such response until the
first response without tool calls. -/
theorem tool_loop_executes_and_records_each_call
    (exec : String → Args → String) (tools : List String)
    (current : ChatMsg) (oracle : List ChatMsg) (acc : RunAcc)
    (fin : ChatMsg) (rest' : List ChatMsg)
    (h : (current :: oracle).dropWhile hasCalls = fin :: rest') :
    toolLoop exec tools current oracle acc = .ok (fin.content,
      { msgs := acc.msgs
          ++ catMap (roundMsgs exec) ((current :: oracle).takeWhile hasCalls) ++ [fin]
      , api := acc.api
          ++ ((current :: oracle).takeWhile hasCalls).map (fun _ => loopApiCall tools)
      , execLog := acc.execLog
          ++ catMap roundLog ((current :: oracle).takeWhile hasCalls) }) :=
  (toolLoop_spec exec tools oracle current acc fin rest' h).2

/-- A demo response requesting two tool calls. -/
def c5CallsMsg : ChatMsg :=
  { role := "assistant", content := ""
  , toolCalls := [⟨"idA", "capital", [("country", JVal.str "France")]⟩,
                  ⟨"idB", "language", [("country", JVal.str "Japan")]⟩] }

/-- A demo final response. -/
def c5FinMsg : ChatMsg :=
  { role := "assistant", content := "final" }

/-- A demo execute oracle. -/
def c5Exec : String → Args → String :=
  fun n _ => n ++ "-result"

/-- Witness for C5: two calls in the first response are both executed and
recorded, each tool message keyed by its call id. -/
theorem tool_loop_executes_witness :
    toolLoop c5Exec ["doc1"] c5CallsMsg [c5FinMsg] ⟨[], [], []⟩
    = .ok (c5FinMsg.content,
      { msgs := ([] : List ChatMsg)
          ++ catMap (roundMsgs c5Exec) ([c5CallsMsg, c5FinMsg].takeWhile hasCalls)
          ++ [c5FinMsg]
      , api := ([] : List ApiCall)
          ++ ([c5CallsMsg, c5FinMsg].takeWhile hasCalls).map (fun _ => loopApiCall ["doc1"])
      , execLog := ([] : List (String × Args))
          ++ catMap roundLog ([c5CallsMsg, c5FinMsg].takeWhile hasCalls) }) :=
  tool_loop_executes_and_records_each_call c5Exec ["doc1"]
    c5CallsMsg [c5FinMsg] ⟨[], [], []⟩ c5FinMsg [] (by decide)

/- ===== Shapes of the phases ===== -/

theorem decomposePhase_shape (prompt : String) (oracle : List ChatMsg) (acc : RunAcc)
    (r1 : ChatMsg) (oracle' : List ChatMsg) (acc' : RunAcc)
    (h : decomposePhase prompt oracle acc = .ok (r1, oracle', acc')) :
    oracle = r1 :: oracle'
    ∧ acc' = { msgs := acc.msgs ++ [userMsg (taskDecompositionInstruction prompt), r1]
             , api := acc.api ++ [{ tools := .searchOnly, toolChoice := .choiceNone }]
             , execLog := acc.execLog } := by
  cases oracle with
  | nil => simp [decomposePhase, fetchResponse] at h
  | cons r rest =>
      simp only [decomposePhase, fetchResponse, Except.ok.injEq, Prod.mk.injEq] at h
      obtain ⟨h1, h2, h3⟩ := h
      subst h1; subst h2; subst h3
      refine ⟨rfl, ?_⟩
      simp

theorem searchPhase_shape (search : String → List String)
    (oracle : List ChatMsg) (acc : RunAcc)
    (tools : List String) (oracle' : List ChatMsg) (acc' : RunAcc)
    (h : searchPhase search oracle acc = .ok (tools, oracle', acc')) :
    ∃ r2 tc v, oracle = r2 :: oracle'
      ∧ r2.toolCalls = [tc]
      ∧ tc.name = "search_tools"
      ∧ unpackSearchToolsArgs tc.arguments = some v
      ∧ tools = search_tools search (fun d => d) v.toActionList
      ∧ acc' = { msgs := acc.msgs
                   ++ [userMsg "Now search for appropriate tools for each of these steps.",
                       r2, searchAckMsg tc]
               , api := acc.api ++ [{ tools := .searchOnly, toolChoice := .forced "search_tools" }]
               , execLog := acc.execLog } := by
  cases oracle with
  | nil => simp [searchPhase, fetchResponse] at h
  | cons r2 rest =>
      refine ⟨r2, ?_⟩
      simp only [searchPhase, fetchResponse] at h
      split at h
      next tc heq =>
        split at h
        next hname =>
          split at h
          next hu => simp at h
          next v hu =>
            simp only [Except.ok.injEq, Prod.mk.injEq] at h
            obtain ⟨h1, h2, h3⟩ := h
            subst h1; subst h2; subst h3
            exact ⟨tc, v, rfl, heq, hname, hu, rfl, by simp⟩
        next hname => simp at h
      next tcs heq =>
        simp at h

theorem toolLoop_error_is_noResponse (exec : String → Args → String) (tools : List String) :
    ∀ (oracle : List ChatMsg) (current : ChatMsg) (acc : RunAcc) (e : QErr),
    toolLoop exec tools current oracle acc = .error e → e = .noResponse := by
  intro oracle
  induction oracle with
  | nil =>
      intro current acc e h
      cases hc : current.toolCalls with
      | nil =>
          have hstep : toolLoop exec tools current [] acc
              = .ok (current.content, { acc with msgs := acc.msgs ++ [current] }) := by
            conv_lhs => rw [toolLoop.eq_def]
            simp only [hc]
          rw [hstep] at h; simp at h
      | cons t ts =>
          have hstep : toolLoop exec tools current [] acc = .error .noResponse := by
            conv_lhs => rw [toolLoop.eq_def]
            simp only [hc]
          rw [hstep] at h
          simp only [Except.error.injEq] at h
          exact h.symm
  | cons next orest ih =>
      intro current acc e h
      cases hc : current.toolCalls with
      | nil =>
          have hstep : toolLoop exec tools current (next :: orest) acc
              = .ok (current.content, { acc with msgs := acc.msgs ++ [current] }) := by
            conv_lhs => rw [toolLoop.eq_def]
            simp only [hc]
          rw [hstep] at h; simp at h
      | cons t ts =>
          have hstep : toolLoop exec tools current (next :: orest) acc
              = toolLoop exec tools next orest
                { msgs := acc.msgs ++ [current] ++ (t :: ts).map (toolResultMsg exec)
                , api := acc.api ++ [loopApiCall tools]
                , execLog := acc.execLog ++ (t :: ts).map (fun tc => (tc.name, tc.arguments)) } := by
            conv_lhs => rw [toolLoop.eq_def]
            simp only [hc]
          rw [hstep] at h
          exact ih next _ e h

theorem toolLoop_msgs_extend (exec : String → Args → String) (tools : List String) :
    ∀ (oracle : List ChatMsg) (current : ChatMsg) (acc : RunAcc)
      (ans : String) (accF : RunAcc),
    toolLoop exec tools current oracle acc = .ok (ans, accF) →
    ∃ ext, accF.msgs = acc.msgs ++ ext := by
  intro oracle
  induction oracle with
  | nil =>
      intro current acc ans accF h
      cases hc : current.toolCalls with
      | nil =>
          have hstep : toolLoop exec tools current [] acc
              = .ok (current.content, { acc with msgs := acc.msgs ++ [current] }) := by
            conv_lhs => rw [toolLoop.eq_def]
            simp only [hc]
          rw [hstep] at h
          simp only [Except.ok.injEq, Prod.mk.injEq] at h
          exact ⟨[current], by rw [← h.2]⟩
      | cons t ts =>
          have hstep : toolLoop exec tools current [] acc = .error .noResponse := by
            conv_lhs => rw [toolLoop.eq_def]
            simp only [hc]
          rw [hstep] at h; simp at h
  | cons next orest ih =>
      intro current acc ans accF h
      cases hc : current.toolCalls with
      | nil =>
          have hstep : toolLoop exec tools current (next :: orest) acc
              = .ok (current.content, { acc with msgs := acc.msgs ++ [current] }) := by
            conv_lhs => rw [toolLoop.eq_def]
            simp only [hc]
          rw [hstep] at h
          simp only [Except.ok.injEq, Prod.mk.injEq] at h
          exact ⟨[current], by rw [← h.2]⟩
      | cons t ts =>
          have hstep : toolLoop exec tools current (next :: orest) acc
              = toolLoop exec tools next orest
                { msgs := acc.msgs ++ [current] ++ (t :: ts).map (toolResultMsg exec)
                , api := acc.api ++ [loopApiCall tools]
                , execLog := acc.execLog ++ (t :: ts).map (fun tc => (tc.name, tc.arguments)) } := by
            conv_lhs => rw [toolLoop.eq_def]
            simp only [hc]
          rw [hstep] at h
          obtain ⟨ext, hext⟩ := ih next _ ans accF h
          exact ⟨[current] ++ (t :: ts).map (toolResultMsg exec) ++ ext, by
            simp only at hext
            rw [hext]; simp⟩

/- ===== C7: the Decompose phase ===== -/

/-- C7: whenever the Decompose step of `TulipAgent.query` completes, it has
sent the user request wrapped in the fixed task-decomposition instruction
(the inline template of `tulip_agent.py`; `prompts.TASK_DECOMPOSITION`
differs from it only by a space before the opening backtick and a trailing
newline) to the model with tool choice `"none"`, and the model's response is
appended to the message history — exactly the wrapped request and the
response are appended — while no tool call is executed during the phase
(the execute log is unchanged). -/
theorem decompose_phase_sends_template_executes_nothing
    (prompt : String) (oracle : List ChatMsg) (acc : RunAcc)
    (r1 : ChatMsg) (oracle' : List ChatMsg) (acc' : RunAcc)
    (h : decomposePhase prompt oracle acc = .ok (r1, oracle', acc')) :
    oracle = r1 :: oracle'
    ∧ acc'.msgs = acc.msgs ++ [userMsg (taskDecompositionInstruction prompt), r1]
    ∧ acc'.api = acc.api ++ [{ tools := .searchOnly, toolChoice := .choiceNone }]
    ∧ acc'.execLog = acc.execLog := by
  obtain ⟨h1, h2⟩ := decomposePhase_shape prompt oracle acc r1 oracle' acc' h
  subst h2
  exact ⟨h1, rfl, rfl, rfl⟩

/-- A demo decomposition response: a numbered action list. -/
def demoStepsMsg : ChatMsg :=
  { role := "assistant", content := "1. Look up the capital of France." }

/-- A demo search oracle. -/
def demoSearch : String → List String := fun _ => []

/-- A demo execute oracle. -/
def demoExec : String → Args → String := fun _ _ => ""

/-- The accumulator state after the demo decompose phase. -/
def demoDecomposeAcc : RunAcc :=
  { msgs := [userMsg (taskDecompositionInstruction "What is the capital of France?"), demoStepsMsg]
  , api := [{ tools := .searchOnly, toolChoice := .choiceNone }]
  , execLog := [] }

/-- Witness for C7 at a concrete one-response oracle. -/
theorem decompose_phase_witness :
    [demoStepsMsg] = demoStepsMsg :: ([] : List ChatMsg)
    ∧ demoDecomposeAcc.msgs
      = [] ++ [userMsg (taskDecompositionInstruction "What is the capital of France?"), demoStepsMsg]
    ∧ demoDecomposeAcc.api = [] ++ [{ tools := .searchOnly, toolChoice := .choiceNone }]
    ∧ demoDecomposeAcc.execLog = ([] : List (String × Args)) :=
  decompose_phase_sends_template_executes_nothing
    "What is the capital of France?" [demoStepsMsg] ⟨[], [], []⟩
    demoStepsMsg [] demoDecomposeAcc (by rfl)

/- ===== C1: the SearchTools assertion gate ===== -/

theorem solveAndLoop_error_is_noResponse (exec : String → Args → String)
    (tools : List String) (steps : String) (oracle : List ChatMsg) (acc : RunAcc)
    (e : QErr) (h : solveAndLoop exec tools steps oracle acc = .error e) :
    e = .noResponse := by
  cases oracle with
  | nil =>
      simp only [solveAndLoop, fetchResponse, Except.error.injEq] at h
      exact h.symm
  | cons r3 oracle3 =>
      simp only [solveAndLoop, fetchResponse] at h
      cases htl : toolLoop exec tools r3 oracle3
          { msgs := (acc.msgs ++ [userMsg (solveWithToolsInstruction steps)])
          , api := acc.api ++ [loopApiCall tools], execLog := acc.execLog } with
      | error e' =>
          rw [htl] at h
          simp only [Except.error.injEq] at h
          subst h
          exact toolLoop_error_is_noResponse _ _ _ _ _ _ htl
      | ok p =>
          rw [htl] at h
          simp at h

/-- The run accumulator right after a successful SearchTools phase that
started from the transcript `msgs0`, for responses `r1` (decompose) and
`r2` (search, carrying the single call `tc`). -/
def afterSearchAcc (msgs0 : List ChatMsg) (prompt : String)
    (r1 r2 : ChatMsg) (tc : ToolCall) : RunAcc :=
  { msgs := msgs0
      ++ [userMsg (taskDecompositionInstruction prompt), r1,
          userMsg "Now search for appropriate tools for each of these steps.",
          r2, searchAckMsg tc]
  , api := [{ tools := .searchOnly, toolChoice := .choiceNone },
            { tools := .searchOnly, toolChoice := .forced "search_tools" }]
  , execLog := [] }

/-- C1 (amended): during the SearchTools phase of `TulipAgent.query`, the
agent fails fatally by assertion unless the model's response contains exactly
one tool call and that call is named `search_tools`; with exactly one
`search_tools` call whose argument object supplies exactly the
`action_descriptions` parameter, the phase proceeds and the query never
aborts (neither by assertion nor by the argument `TypeError`; the only
remaining failure is running out of model responses, i.e. blocking on the
API).  When the single call's argument object does not supply exactly
`action_descriptions`, the phase aborts with a `TypeError` instead — see the
counterexample. -/
theorem search_phase_asserts_exactly_one_search_tools_call
    (search : String → List String) (exec : String → Args → String)
    (r1 r2 : ChatMsg) (rest : List ChatMsg) (msgs0 : List ChatMsg) (prompt : String) :
    ((¬ ∃ tc, r2.toolCalls = [tc] ∧ tc.name = "search_tools") →
      ∃ m, queryRun search exec (r1 :: r2 :: rest) msgs0 prompt
          = .error (.assertFailure m))
    ∧ (∀ tc v, r2.toolCalls = [tc] → tc.name = "search_tools" →
        tc.arguments = [("action_descriptions", v)] →
        queryRun search exec (r1 :: r2 :: rest) msgs0 prompt ≠ .error .typeError
        ∧ ∀ m, queryRun search exec (r1 :: r2 :: rest) msgs0 prompt
            ≠ .error (.assertFailure m)) := by
  constructor
  · intro hno
    rcases hc : r2.toolCalls with _ | ⟨tc, _ | ⟨tc2, tcs⟩⟩
    · refine ⟨"Not exactly one tool search executed, but 0.", ?_⟩
      simp [queryRun, decomposePhase, fetchResponse, searchPhase, hc]
      rfl
    · have hname : ¬ tc.name = "search_tools" := fun he => hno ⟨tc, hc, he⟩
      refine ⟨"Unexpected tool call: " ++ tc.name, ?_⟩
      simp [queryRun, decomposePhase, fetchResponse, searchPhase, hc, hname]
    · refine ⟨"Not exactly one tool search executed, but "
          ++ toString (tcs.length + 1 + 1) ++ ".", ?_⟩
      simp [queryRun, decomposePhase, fetchResponse, searchPhase, hc]
  · intro tc v hc hname hargs
    have hu : unpackSearchToolsArgs tc.arguments = some v := by
      simp [hargs, unpackSearchToolsArgs]
    have hred : ∃ acc2, queryRun search exec (r1 :: r2 :: rest) msgs0 prompt
        = solveAndLoop exec (search_tools search (fun d => d) v.toActionList)
            r1.content rest acc2 := by
      refine ⟨afterSearchAcc msgs0 prompt r1 r2 tc, ?_⟩
      simp [queryRun, decomposePhase, fetchResponse, searchPhase, afterSearchAcc,
        hc, hname, hu]
    obtain ⟨acc2, hr⟩ := hred
    constructor
    · intro heq
      rw [hr] at heq
      exact QErr.noConfusion (solveAndLoop_error_is_noResponse _ _ _ _ _ _ heq)
    · intro m heq
      rw [hr] at heq
      exact QErr.noConfusion (solveAndLoop_error_is_noResponse _ _ _ _ _ _ heq)

/-- A model response carrying a single `search_tools` call whose argument
object supplies exactly the schema's required parameter
`problem_description`. -/
def badSearchMsg : ChatMsg :=
  { role := "assistant", content := ""
  , toolCalls := [⟨"call-0", "search_tools",
      [("problem_description", JVal.str "capital lookup")]⟩] }

/-- Counterexample to C1 as stated: a response with exactly one tool call
named `search_tools` on which the SearchTools phase nevertheless aborts the
query — the argument object follows the published schema's `required` list,
so unpacking it into `search_tools` raises `TypeError`.  "With exactly one
`search_tools` call, the phase proceeds without aborting" is therefore false
on the code. -/
theorem single_search_tools_call_still_aborts :
    badSearchMsg.toolCalls.length = 1
    ∧ badSearchMsg.toolCalls.map ToolCall.name = ["search_tools"]
    ∧ queryRun demoSearch demoExec [demoStepsMsg, badSearchMsg] []
        "What is the capital of France?" = .error .typeError :=
  ⟨rfl, rfl, rfl⟩

/-- A demo response without tool calls, for the C1 witness. -/
def c1NoCallMsg : ChatMsg :=
  { role := "assistant", content := "I could not search." }

/-- Witness for C1 (amended), first conjunct: a search-phase response with
zero tool calls makes the query fail by assertion. -/
theorem search_phase_gate_witness :
    ∃ m, queryRun demoSearch demoExec [demoStepsMsg, c1NoCallMsg] [] "ping"
        = .error (.assertFailure m) :=
  (search_phase_asserts_exactly_one_search_tools_call demoSearch demoExec
      demoStepsMsg c1NoCallMsg [] [] "ping").1
    (by rintro ⟨tc, h, -⟩; simp [c1NoCallMsg] at h)

/- ===== C6: the transcript ===== -/

theorem solveAndLoop_msgs_extend (exec : String → Args → String)
    (tools : List String) (steps : String) (oracle : List ChatMsg) (acc : RunAcc)
    (out : QueryOut) (h : solveAndLoop exec tools steps oracle acc = .ok out) :
    ∃ ext, out.messages = acc.msgs ++ ext := by
  cases oracle with
  | nil => simp [solveAndLoop, fetchResponse] at h
  | cons r3 oracle3 =>
      simp only [solveAndLoop, fetchResponse] at h
      cases htl : toolLoop exec tools r3 oracle3
          { msgs := (acc.msgs ++ [userMsg (solveWithToolsInstruction steps)])
          , api := acc.api ++ [loopApiCall tools], execLog := acc.execLog } with
      | error e => rw [htl] at h; simp at h
      | ok p =>
          obtain ⟨ans, acc5⟩ := p
          rw [htl] at h
          simp only [Except.ok.injEq] at h
          obtain ⟨ext, hext⟩ := toolLoop_msgs_extend exec tools oracle3 r3 _ ans acc5 htl
          refine ⟨[userMsg (solveWithToolsInstruction steps)] ++ ext, ?_⟩
          rw [← h]
          simp only at hext
          simp [hext]

theorem queryRun_msgs_extend (search : String → List String)
    (exec : String → Args → String) (oracle : List ChatMsg)
    (msgs0 : List ChatMsg) (prompt : String) (out : QueryOut)
    (h : queryRun search exec oracle msgs0 prompt = .ok out) :
    ∃ ext, out.messages = msgs0 ++ ext := by
  unfold queryRun at h
  split at h
  next e hd => simp at h
  next r1 oracle1 acc1 hd =>
    split at h
    next e hs => simp at h
    next tools oracle2 acc2 hs =>
      obtain ⟨-, hacc1⟩ := decomposePhase_shape _ _ _ _ _ _ hd
      obtain ⟨r2, tc, v, -, -, -, -, -, hacc2⟩ := searchPhase_shape _ _ _ _ _ _ hs
      obtain ⟨ext, hext⟩ := solveAndLoop_msgs_extend _ _ _ _ _ _ h
      subst hacc1; subst hacc2
      simp only at hext
      refine ⟨[userMsg (taskDecompositionInstruction prompt), r1,
          userMsg "Now search for appropriate tools for each of these steps.",
          r2, searchAckMsg tc] ++ ext, ?_⟩
      rw [hext]; simp

/-- C6 (amended, append-only half): every completed `TulipAgent.query` run
only appends to the transcript — the messages the agent held at entry are an
unchanged prefix of the messages it holds afterwards; no message is removed
or modified. -/
theorem query_transcript_append_only (search : String → List String)
    (exec : String → Args → String) (oracle : List ChatMsg) (prompt : String)
    (agent agent' : TulipAgent) (ans : String)
    (h : agent.query search exec oracle prompt = .ok (ans, agent')) :
    ∃ ext, agent'.messages = agent.messages ++ ext := by
  unfold TulipAgent.query at h
  cases hq : queryRun search exec oracle agent.messages prompt with
  | error e => rw [hq] at h; simp at h
  | ok out =>
      rw [hq] at h
      simp only [Except.ok.injEq, Prod.mk.injEq] at h
      obtain ⟨h1, h2⟩ := h
      obtain ⟨ext, hext⟩ := queryRun_msgs_extend _ _ _ _ _ _ hq
      exact ⟨ext, by rw [← h2]; exact hext⟩

/-- A demo search-phase response carrying one well-formed `search_tools`
call. -/
def goodSearchMsg : ChatMsg :=
  { role := "assistant", content := ""
  , toolCalls := [⟨"call-1", "search_tools",
      [("action_descriptions", JVal.arr ["look up a capital"])]⟩] }

/-- A demo final response for the first demo query. -/
def demoFinalMsg : ChatMsg :=
  { role := "assistant", content := "The capital of France is Paris." }

/-- A demo final response for the second demo query. -/
def demoFinalMsg2 : ChatMsg :=
  { role := "assistant", content := "The capital of Germany is Berlin." }

/-- The model oracle of the first demo query. -/
def demoOracle : List ChatMsg := [demoStepsMsg, goodSearchMsg, demoFinalMsg]

/-- The model oracle of the second demo query. -/
def demoOracle2 : List ChatMsg := [demoStepsMsg, goodSearchMsg, demoFinalMsg2]

/-- The agent as constructed by `__init__`. -/
def demoAgent0 : TulipAgent := TulipAgent.init "You are a helpful agent."

/-- The agent after its first query. -/
def demoAgent1 : TulipAgent :=
  match demoAgent0.query demoSearch demoExec demoOracle "What is the capital of France?" with
  | .ok (_, a) => a
  | .error _ => TulipAgent.init ""

/-- The agent after its second query. -/
def demoAgent2 : TulipAgent :=
  match demoAgent1.query demoSearch demoExec demoOracle2 "What is the capital of Germany?" with
  | .ok (_, a) => a
  | .error _ => TulipAgent.init ""

set_option maxRecDepth 100000 in
/-- Counterexample to C6 as stated: the transcript is owned by the agent
instance, not by one query — `self.messages` is created in `__init__` and
never reset, so the transcript built by the first query (which extends the
initial one) is still present, as a prefix, in the transcript the second
query builds on and returns: the transcript of one query invocation is
shared beyond that query's lifetime. -/
theorem transcript_outlives_its_query :
    demoAgent1.messages ≠ demoAgent0.messages
    ∧ demoAgent2.messages.take demoAgent1.messages.length = demoAgent1.messages
    ∧ userMsg (taskDecompositionInstruction "What is the capital of France?")
        ∈ demoAgent2.messages :=
  ⟨by decide, by decide, by decide⟩

/-- Witness for C6 (amended): the first demo query only appended to the
initial transcript. -/
theorem query_transcript_append_only_witness :
    ∃ ext, demoAgent1.messages = demoAgent0.messages ++ ext :=
  query_transcript_append_only demoSearch demoExec demoOracle
    "What is the capital of France?" demoAgent0 demoAgent1
    demoFinalMsg.content (by rfl)

/- ===== C8: the capital-of-France example ===== -/

/-- Modelled from the spec: `ToolLibrary.execute` (the `tool_library` module
is not among the sources; per spec sections 4.1 and 7, execute looks up the
registered callable by name, invokes it with the given arguments, and an
unknown name or failure propagates as an execution error surfaced as the
tool's result content).  The registered callables are `capital` and
`language` from `examples/tamims.py`, as registered by `examples/tamim.py`. -/
def exampleExec : String → Args → String
  | "capital", [("country", JVal.str c)] => capital c
  | "language", [("country", JVal.str c)] => language c
  | n, _ => "Error: invalid tool call for " ++ n

/-- A model response carrying one well-formed `search_tools` call for the
given action descriptions. -/
def mkSearchCall (cid : String) (acts : List String) : ChatMsg :=
  { role := "assistant", content := ""
  , toolCalls := [⟨cid, "search_tools", [("action_descriptions", JVal.arr acts)]⟩] }

/-- A model response carrying one `capital(country="France")` call. -/
def mkCapitalCall (cid : String) : ChatMsg :=
  { role := "assistant", content := ""
  , toolCalls := [⟨cid, "capital", [("country", JVal.str "France")]⟩] }

/-- Whether `needle` occurs as a contiguous run inside `hay`. -/
def strOccurs : List Char → List Char → Bool
  | needle, [] => needle.isEmpty
  | needle, c :: rest => needle.isPrefixOf (c :: rest) || strOccurs needle rest

/-- `needle` is a substring of `hay`. -/
def containsStr (hay needle : String) : Prop :=
  strOccurs needle.data hay.data = true

instance (hay needle : String) : Decidable (containsStr hay needle) :=
  inferInstanceAs (Decidable (strOccurs needle.data hay.data = true))

theorem searchToolsGo_acc (search : String → List String) (parse : String → α) :
    ∀ (acts : List String) (jsonRes : List α) (hashRes : List String),
    ∃ t, searchToolsGo search parse acts jsonRes hashRes = jsonRes ++ t := by
  intro acts
  induction acts with
  | nil => intro j h; exact ⟨[], by simp [searchToolsGo]⟩
  | cons a rest ih =>
      intro j h
      obtain ⟨t, ht⟩ := ih (j ++ ((search a).filter (fun e => !h.contains e)).map parse)
        (h ++ search a)
      refine ⟨((search a).filter (fun e => !h.contains e)).map parse ++ t, ?_⟩
      calc searchToolsGo search parse (a :: rest) j h
          = searchToolsGo search parse rest
              (j ++ ((search a).filter (fun e => !h.contains e)).map parse)
              (h ++ search a) := rfl
        _ = (j ++ ((search a).filter (fun e => !h.contains e)).map parse) ++ t := ht
        _ = j ++ (((search a).filter (fun e => !h.contains e)).map parse ++ t) := by simp

theorem mem_search_tools_head (search : String → List String)
    (doc a : String) (as : List String) (h : doc ∈ search a) :
    doc ∈ search_tools search (fun d => d) (a :: as) := by
  have h0 : search_tools search (fun d => d) (a :: as)
      = searchToolsGo search (fun d => d) as
          (((search a).filter (fun e => !(([] : List String).contains e))).map (fun d => d))
          (search a) := rfl
  have h1 : ((search a).filter (fun e => !(([] : List String).contains e))).map (fun d => d)
      = search a := by
    have hp : (fun e => !(([] : List String).contains e)) = fun (_ : String) => true := by
      funext e; rfl
    rw [hp, List.filter_true]
    simp
  obtain ⟨t, ht⟩ := searchToolsGo_acc search (fun d => d) as
    (((search a).filter (fun e => !(([] : List String).contains e))).map (fun d => d))
    (search a)
  rw [h0, ht, h1]
  exact List.mem_append_left _ h

/-- C8: for the query `"What is the capital of France?"` against the library
holding `capital` and `language`, whenever the model plays the scripted
example (it requests one well-formed tool search; the tool library returns
`doc` — the descriptor of `capital` — for the first action description; the
model then calls `capital` with `country="France"`, and its final response
restates the execution result it was shown), the agent run selects `capital`
(its descriptor is among the tools handed to the model), executes exactly
`capital(country="France")`, which evaluates to `"Paris"`, and returns a
final answer containing `"Paris"`. -/
theorem capital_query_selects_and_executes_capital
    (search : String → List String) (msgs0 : List ChatMsg)
    (r1 r4 : ChatMsg) (id2 id3 : String) (a : String) (as : List String) (doc : String)
    (hdoc : doc ∈ search a)
    (h4 : r4.toolCalls = [])
    (hecho : containsStr r4.content (exampleExec "capital" [("country", JVal.str "France")])) :
    ∃ out,
      queryRun search exampleExec
          [r1, mkSearchCall id2 (a :: as), mkCapitalCall id3, r4]
          msgs0 "What is the capital of France?" = .ok out
      ∧ out.answer = r4.content
      ∧ out.execLog = [("capital", [("country", JVal.str "France")])]
      ∧ doc ∈ out.tools
      ∧ capital "France" = "Paris"
      ∧ containsStr out.answer "Paris" := by
  exact ⟨_,
    by simp [queryRun, decomposePhase, searchPhase, fetchResponse, solveAndLoop,
         toolLoop, toolResultMsg, mkSearchCall, mkCapitalCall, unpackSearchToolsArgs,
         JVal.toActionList, h4]; rfl,
    rfl, rfl, mem_search_tools_head search doc a as hdoc, rfl, hecho⟩

/-- The search oracle of the C8 witness: the library returns the `capital`
descriptor. -/
def c8Search : String → List String := fun _ => ["descriptor of capital"]

/-- The final model response of the C8 witness. -/
def c8FinalMsg : ChatMsg :=
  { role := "assistant", content := "The capital of France is Paris." }

/-- Witness for C8 at a fully concrete scripted run. -/
theorem capital_query_witness :
    ∃ out,
      queryRun c8Search exampleExec
          [demoStepsMsg, mkSearchCall "s1" ("find the capital of a country" :: []),
           mkCapitalCall "e1", c8FinalMsg]
          [] "What is the capital of France?" = .ok out
      ∧ out.answer = c8FinalMsg.content
      ∧ out.execLog = [("capital", [("country", JVal.str "France")])]
      ∧ "descriptor of capital" ∈ out.tools
      ∧ capital "France" = "Paris"
      ∧ containsStr out.answer "Paris" :=
  capital_query_selects_and_executes_capital c8Search [] demoStepsMsg c8FinalMsg
    "s1" "e1" "find the capital of a country" [] "descriptor of capital"
    (by decide) rfl (by decide)

end Tulip
